import Mathlib

/-!
Shallow embedding of `src/model/transformer.py` (class `Transformer`):
mask construction (`create_subsequent_mask`, `create_mask`), sinusoidal
positional encoding (`create_positional_encoding`) and the `forward`
orchestration.

Token-id tensors of shape (batch, length) are embedded as functions
`Nat → Nat → Int` (batch index, position ↦ token id); boolean mask tensors of
shape (batch, rows, cols) as `Nat → Nat → Nat → Bool`; real tensors of shape
(batch, rows, cols) as `Nat → Nat → Nat → ℝ`.  Broadcasting
(`unsqueeze(k).repeat(...)`) becomes index-dropping, which is exact for the
shapes used here.  numpy/torch floating point is idealised as ℝ.
-/

namespace TransformerModel

/-- Embedding of `torch.triu(torch.ones(L, L), diagonal=d).bool()`: entry
`(i, j)` is true iff `j - i ≥ d`, i.e. `(j : ℤ) ≥ (i : ℤ) + d`. -/
def triu_ones (d : Int) (i j : Nat) : Bool :=
  decide ((j : Int) ≥ (i : Int) + d)

/-- Embedding of `Transformer.create_subsequent_mask`: the strictly upper
triangular `target_length × target_length` table `triu(ones, diagonal=1)`,
cloned across the batch dimension by `unsqueeze(0).repeat(batch_size, 1, 1)`
(so the batch index is ignored). -/
def create_subsequent_mask (batch_size target_length : Nat) :
    Nat → Nat → Nat → Bool :=
  fun _b i j => triu_ones 1 i j

/-- Embedding of the padding-mask tensors `(source == self.params.pad_idx)` /
`(target == self.params.pad_idx)` built inside `Transformer.create_mask`:
entry `(b, t)` is true iff the token at `(b, t)` equals `pad_idx`. -/
def padding_mask (seq : Nat → Nat → Int) (pad_idx : Int) : Nat → Nat → Bool :=
  fun b t => decide (seq b t = pad_idx)

/-- Embedding of `Transformer.create_mask`.  Returns
`(source_mask, target_mask, dec_enc_mask)`:
`dec_enc_mask = source_mask2d.unsqueeze(1).repeat(1, target_length, 1)`,
`source_mask = source_mask2d.unsqueeze(1).repeat(1, source_length, 1)`,
`target_mask = target_mask2d.unsqueeze(1).repeat(1, target_length, 1) | subsequent_mask`.
`unsqueeze(1).repeat(1, L, 1)` copies the 2-D mask to every query row, so in
the function embedding the query index is dropped. -/
def create_mask (pad_idx : Int) (source target : Nat → Nat → Int)
    (subsequent_mask : Nat → Nat → Nat → Bool) :
    (Nat → Nat → Nat → Bool) × (Nat → Nat → Nat → Bool) ×
      (Nat → Nat → Nat → Bool) :=
  let source_mask2 := padding_mask source pad_idx
  let target_mask2 := padding_mask target pad_idx
  let dec_enc_mask : Nat → Nat → Nat → Bool := fun b _q k => source_mask2 b k
  let source_mask : Nat → Nat → Nat → Bool := fun b _q k => source_mask2 b k
  let target_mask : Nat → Nat → Nat → Bool :=
    fun b q k => target_mask2 b k || subsequent_mask b q k
  (source_mask, target_mask, dec_enc_mask)

/-- Embedding of the numpy comprehension in
`Transformer.create_positional_encoding` after the
`reshape(sentence_len, -1)`: entry `(pos, i)` of the angle table is
`pos / np.power(10000, 2*i/self.hidden_dim)` — note the exponent uses the raw
dimension index `i`, not the pair index `i // 2`. -/
noncomputable def sinusoid_table_raw (hidden_dim : Nat) (pos i : Nat) : ℝ :=
  (pos : ℝ) / (10000 : ℝ) ^ ((2 * (i : ℝ)) / (hidden_dim : ℝ))

/-- Table after `sinusoid_table[0::2, :] = np.sin(sinusoid_table[0::2, :])`:
the slice `0::2` along axis 0 selects the even `pos` rows. -/
noncomputable def sinusoid_table_even (hidden_dim : Nat) (pos i : Nat) : ℝ :=
  if pos % 2 = 0 then Real.sin (sinusoid_table_raw hidden_dim pos i)
  else sinusoid_table_raw hidden_dim pos i

/-- Table after the subsequent
`sinusoid_table[1::2, :] = np.sin(sinusoid_table[1::2, :])`: the slice `1::2`
along axis 0 selects the odd `pos` rows of the updated table. -/
noncomputable def sinusoid_table_final (hidden_dim : Nat) (pos i : Nat) : ℝ :=
  if pos % 2 = 1 then Real.sin (sinusoid_table_even hidden_dim pos i)
  else sinusoid_table_even hidden_dim pos i

/-- Embedding of `Transformer.create_positional_encoding`: the final
`(sentence_len, hidden_dim)` sinusoid table, repeated across the batch
dimension by `unsqueeze(0).repeat(batch_size, 1, 1)` (batch index ignored). -/
noncomputable def create_positional_encoding
    (hidden_dim batch_size sentence_len : Nat) : Nat → Nat → Nat → ℝ :=
  fun _b pos i => sinusoid_table_final hidden_dim pos i

/-- The per-entry angle as the specification words it:
`pos / 10000 ^ (2*(i // 2) / hiddenDim)` with integer division `i // 2`, so
that an even/odd pair of dimension indices shares one frequency.  Kept
separate from `sinusoid_table_raw` (the source's formula) for comparison. -/
noncomputable def spec_angle (hidden_dim : Nat) (pos i : Nat) : ℝ :=
  (pos : ℝ) / (10000 : ℝ) ^ ((2 * ((i / 2 : Nat) : ℝ)) / (hidden_dim : ℝ))

/-- The only domain-specific error the specification names for `forward`. -/
inductive ForwardError where
  | ShapeMismatch

/-- Modelled from the spec: `Transformer.forward` builds the subsequent mask,
the combined masks and the two positional tables exactly as the source does
(those computations are total and raise nothing), while the batch-size
consistency requirement lives in the external `Encoder`/`Decoder`
collaborators (`model/encoder.py`, `model/decoder.py`, imported but not
present under `src/`).  The spec's failure condition — forward "fails with
`ShapeMismatch` if source/target batch sizes are inconsistent" — is modelled
as an explicit check; on success the mask and positional-encoding outputs are
returned in place of the opaque encoder/decoder call. -/
noncomputable def forward (pad_idx : Int) (hidden_dim : Nat)
    (source_batch source_len target_batch target_len : Nat)
    (source target : Nat → Nat → Int) :
    Except ForwardError
      (((Nat → Nat → Nat → Bool) × (Nat → Nat → Nat → Bool) ×
          (Nat → Nat → Nat → Bool)) ×
        (Nat → Nat → Nat → ℝ) × (Nat → Nat → Nat → ℝ)) :=
  let subsequent_mask := create_subsequent_mask target_batch target_len
  let masks := create_mask pad_idx source target subsequent_mask
  let source_positional_encoding :=
    create_positional_encoding hidden_dim source_batch source_len
  let target_positional_encoding :=
    create_positional_encoding hidden_dim target_batch target_len
  if source_batch = target_batch then
    Except.ok (masks, source_positional_encoding, target_positional_encoding)
  else
    Except.error ForwardError.ShapeMismatch

/-- Materialise a boolean 3-D mask function on a concrete
`(batch, rows, cols)` shape as nested lists, for concrete examples. -/
def mask_to_lists (m : Nat → Nat → Nat → Bool) (batch rows cols : Nat) :
    List (List (List Bool)) :=
  (List.range batch).map fun b =>
    (List.range rows).map fun i =>
      (List.range cols).map fun j => m b i j

/-- Materialise a boolean 2-D mask function on a concrete `(batch, len)`
shape as nested lists. -/
def mask2_to_lists (m : Nat → Nat → Bool) (batch len : Nat) :
    List (List Bool) :=
  (List.range batch).map fun b => (List.range len).map fun t => m b t

/-- View a nested list of token ids as a token-sequence function
(out-of-range reads default to 0; only in-range cells are ever used). -/
def seq_of_lists (xss : List (List Int)) : Nat → Nat → Int :=
  fun b t => (xss.getD b []).getD t 0

/-- Materialise one `(b, pos, :)` row of a real 3-D table on `cols` columns. -/
noncomputable def table_row (t : Nat → Nat → Nat → ℝ) (b pos cols : Nat) :
    List ℝ :=
  (List.range cols).map fun i => t b pos i

/-- The two position-row slices `0::2` and `1::2` together apply `sin` to
every row, so every entry of the final table is the sine of its raw angle. -/
lemma sinusoid_table_final_eq_sin (hidden_dim pos i : Nat) :
    sinusoid_table_final hidden_dim pos i =
      Real.sin (sinusoid_table_raw hidden_dim pos i) := by
  unfold sinusoid_table_final sinusoid_table_even
  rcases Nat.mod_two_eq_zero_or_one pos with hp | hp <;> simp [hp]

end TransformerModel

namespace TransformerModel

/-- C2: `create_subsequent_mask` yields, for every batch size and target
length, the mask whose entry `(b, i, j)` is true iff `j > i`, identically in
the batch index `b`; and on `(targetLength, batchSize) = (3, 1)` it
materialises to `[[[F,T,T],[F,F,T],[F,F,F]]]`. -/
theorem create_subsequent_mask_spec :
    ∀ (batch_size target_length b b' i j : Nat),
      (create_subsequent_mask batch_size target_length b i j = true ↔ j > i) ∧
      create_subsequent_mask batch_size target_length b i j =
        create_subsequent_mask batch_size target_length b' i j ∧
      mask_to_lists (create_subsequent_mask 1 3) 1 3 3 =
        [[[false, true, true], [false, false, true], [false, false, false]]] := by
  intro batch_size target_length b b' i j
  refine ⟨?_, rfl, by decide⟩
  simp only [create_subsequent_mask, triu_ones, decide_eq_true_eq, ge_iff_le,
    Int.add_one_le_iff]
  exact_mod_cast Iff.rfl

/-- C4: the padding mask is true at `(b, t)` iff the token there is the pad
id; and `paddingMask([[5,5,0]], padId = 0) = [[false, false, true]]`. -/
theorem padding_mask_spec :
    ∀ (seq : Nat → Nat → Int) (pad_idx : Int) (b t : Nat),
      (padding_mask seq pad_idx b t = true ↔ seq b t = pad_idx) ∧
      mask2_to_lists (padding_mask (seq_of_lists [[5, 5, 0]]) 0) 1 3 =
        [[false, false, true]] := by
  intro seq pad_idx b t
  exact ⟨by simp [padding_mask], by decide⟩

/-- C3: the target mask returned by `create_mask` is, cell by cell, the
logical OR of the target padding mask broadcast over query positions and the
causal subsequent mask (true iff `j > i`). -/
theorem target_mask_eq_padding_or_subsequent :
    ∀ (pad_idx : Int) (source target : Nat → Nat → Int)
      (batch_size target_length b i j : Nat),
      (create_mask pad_idx source target
          (create_subsequent_mask batch_size target_length)).2.1 b i j =
        (padding_mask target pad_idx b j || decide (j > i)) := by
  intro pad_idx source target batch_size target_length b i j
  simp only [create_mask, create_subsequent_mask, triu_ones]
  congr 1
  rw [decide_eq_decide]
  omega

/-- C5: the `dec_enc_mask` (cross mask) returned by `create_mask` is the
source padding mask replicated across all target query positions: its entry
`(b, q, k)` equals `paddingMask(source)[b, k]` for every `q`. -/
theorem dec_enc_mask_eq_source_padding :
    ∀ (pad_idx : Int) (source target : Nat → Nat → Int)
      (subsequent_mask : Nat → Nat → Nat → Bool) (b q k : Nat),
      (create_mask pad_idx source target subsequent_mask).2.2 b q k =
        padding_mask source pad_idx b k := by
  intro pad_idx source target subsequent_mask b q k
  rfl

/-- C7: the positional table is replicated identically across the batch
dimension: the `(length, hiddenDim)` slice at any two batch indices agrees. -/
theorem create_positional_encoding_batch_independent :
    ∀ (hidden_dim batch_size sentence_len b b' pos i : Nat),
      create_positional_encoding hidden_dim batch_size sentence_len b pos i =
        create_positional_encoding hidden_dim batch_size sentence_len b' pos i := by
  intro hidden_dim batch_size sentence_len b b' pos i
  rfl

/-- C8: `create_positional_encoding` is a deterministic pure function of its
integer inputs: two calls with identical `(hiddenDim, batchSize, length)`
yield identical tables (there is no hidden state to vary). -/
theorem create_positional_encoding_deterministic :
    ∀ (h₁ h₂ bs₁ bs₂ l₁ l₂ : Nat),
      h₁ = h₂ → bs₁ = bs₂ → l₁ = l₂ →
      create_positional_encoding h₁ bs₁ l₁ =
        create_positional_encoding h₂ bs₂ l₂ := by
  intro h₁ h₂ bs₁ bs₂ l₁ l₂ hh hbs hl
  rw [hh, hbs, hl]

/-- Witness for C8 at `(hiddenDim, batchSize, length) = (4, 1, 2)`. -/
theorem create_positional_encoding_deterministic_witness :
    ((4 : Nat) = 4 ∧ (1 : Nat) = 1 ∧ (2 : Nat) = 2) ∧
      create_positional_encoding 4 1 2 = create_positional_encoding 4 1 2 :=
  ⟨⟨rfl, rfl, rfl⟩,
    create_positional_encoding_deterministic 4 4 1 1 2 2 rfl rfl rfl⟩

/-- C10: every entry of the positional table lies in `[-1, 1]`, since the two
row slices `0::2` and `1::2` jointly put every entry through `sin`. -/
theorem create_positional_encoding_bounded :
    ∀ (hidden_dim batch_size sentence_len b pos i : Nat),
      -1 ≤ create_positional_encoding hidden_dim batch_size sentence_len b pos i ∧
        create_positional_encoding hidden_dim batch_size sentence_len b pos i ≤ 1 := by
  intro hidden_dim batch_size sentence_len b pos i
  show -1 ≤ sinusoid_table_final hidden_dim pos i ∧
    sinusoid_table_final hidden_dim pos i ≤ 1
  rw [sinusoid_table_final_eq_sin]
  exact ⟨Real.neg_one_le_sin _, Real.sin_le_one _⟩

/-- C9: with `hiddenDim = 4` and `length = 2`, the row of the positional
table at position 0 is all zeros: `encode(1, 2, 4)[0, 0, :] = [0, 0, 0, 0]`,
since every angle at `pos = 0` is `0` and `sin 0 = 0`. -/
theorem create_positional_encoding_row_zero :
    table_row (create_positional_encoding 4 1 2) 0 0 4 = [0, 0, 0, 0] := by
  have hz : ∀ i : Nat, create_positional_encoding 4 1 2 0 0 i = 0 := by
    intro i
    show sinusoid_table_final 4 0 i = 0
    rw [sinusoid_table_final_eq_sin]
    simp [sinusoid_table_raw]
  unfold table_row
  rw [show List.range 4 = [0, 1, 2, 3] from rfl]
  simp [hz]

/-- C6: `forward` fails with `ShapeMismatch` exactly when the source and
target batch sizes differ, and for equal batch sizes the mask and
positional-encoding computations succeed with no error. -/
theorem forward_shape_mismatch_spec :
    ∀ (pad_idx : Int) (hidden_dim sb sl tb tl : Nat)
      (source target : Nat → Nat → Int),
      (sb ≠ tb → forward pad_idx hidden_dim sb sl tb tl source target =
        Except.error ForwardError.ShapeMismatch) ∧
      (sb = tb → forward pad_idx hidden_dim sb sl tb tl source target =
        Except.ok
          (create_mask pad_idx source target (create_subsequent_mask tb tl),
            create_positional_encoding hidden_dim sb sl,
            create_positional_encoding hidden_dim tb tl)) := by
  intro pad_idx hidden_dim sb sl tb tl source target
  constructor
  · intro h
    simp [forward, h]
  · intro h
    simp [forward, h]

/-- Witness for C6: with source batch 1 and target batch 2, `forward`
returns the `ShapeMismatch` error. -/
theorem forward_shape_mismatch_spec_witness :
    (1 : Nat) ≠ 2 ∧
      forward 0 4 1 3 2 3 (fun _ _ => 0) (fun _ _ => 0) =
        Except.error ForwardError.ShapeMismatch :=
  ⟨by decide, (forward_shape_mismatch_spec 0 4 1 3 2 3
    (fun _ _ => 0) (fun _ _ => 0)).1 (by decide)⟩

/-- C1: evaluation of the code at the failing input `hiddenDim = 4`,
`pos = 1`, `i = 2`.  The source computes the angle with the raw dimension
index (`2*i/hiddenDim`), giving `sin(1/10000^1) = sin(1/10000)`; the claimed
paired-frequency angle `2*(i // 2)/hiddenDim` (which matches the code's own
comment `PE(pos, 2i) = sin(pos/10000 ** (2*i/hidden_dim))`) would give
`sin(1/10000^(1/2)) = sin(1/100)`, a different value. -/
theorem positional_encoding_unpaired_frequency :
    create_positional_encoding 4 1 2 0 1 2 = Real.sin ((1 : ℝ) / 10000) ∧
      create_positional_encoding 4 1 2 0 1 2 ≠ Real.sin (spec_angle 4 1 2) := by
  have hsqrt : (10000 : ℝ) ^ ((1 : ℝ) / 2) = 100 := by
    rw [show (10000 : ℝ) = (100 : ℝ) ^ (2 : ℕ) by norm_num,
      ← Real.rpow_natCast (100 : ℝ) 2,
      ← Real.rpow_mul (by norm_num : (0 : ℝ) ≤ 100)]
    rw [show ((2 : ℕ) : ℝ) * (1 / 2) = 1 by push_cast; ring, Real.rpow_one]
  have hcode : create_positional_encoding 4 1 2 0 1 2 =
      Real.sin ((1 : ℝ) / 10000) := by
    show sinusoid_table_final 4 1 2 = _
    rw [sinusoid_table_final_eq_sin]
    unfold sinusoid_table_raw
    push_cast
    rw [show (2 : ℝ) * 2 / 4 = 1 by norm_num, Real.rpow_one]
  have hspec : spec_angle 4 1 2 = 1 / 100 := by
    unfold spec_angle
    rw [show ((2 : ℕ) / 2 : ℕ) = 1 from rfl]
    push_cast
    rw [show (2 : ℝ) * 1 / 4 = 1 / 2 by norm_num, hsqrt]
  have hlt : Real.sin ((1 : ℝ) / 10000) < Real.sin ((1 : ℝ) / 100) := by
    apply Real.sin_lt_sin_of_lt_of_le_pi_div_two
    · have := Real.pi_pos
      linarith
    · have := Real.pi_gt_three
      linarith
    · norm_num
  refine ⟨hcode, ?_⟩
  rw [hcode, hspec]
  exact ne_of_lt hlt

/-- C1 (amended): for every position `pos` and dimension index `i`, the value
of the positional table at `(pos, i)` equals `sin(angle)` with
`angle = pos / 10000 ^ (2*i / hiddenDim)` — `sin` is applied at both even and
odd dimension indices, but the exponent uses the raw index `i`, so each
dimension index has its own frequency (even/odd pairs do not share one). -/
theorem create_positional_encoding_entry :
    ∀ (hidden_dim batch_size sentence_len b pos i : Nat),
      create_positional_encoding hidden_dim batch_size sentence_len b pos i =
        Real.sin ((pos : ℝ) /
          (10000 : ℝ) ^ ((2 * (i : ℝ)) / (hidden_dim : ℝ))) := by
  intro hidden_dim batch_size sentence_len b pos i
  show sinusoid_table_final hidden_dim pos i = _
  rw [sinusoid_table_final_eq_sin]
  rfl

end TransformerModel
